import Mathlib

/-!
Verification development for the landing-page generator.

JavaScript strings are modelled shallowly as lists of characters
(`JsStr`), so that splitting, trimming and searching are ordinary
structural recursions that the kernel can evaluate.
-/

set_option autoImplicit false

/-- JavaScript strings, modelled as lists of characters. -/
abbrev JsStr := List Char

/-- Coerce a Lean string literal into the `JsStr` model. -/
def str (s : String) : JsStr := s.data

/-- ASCII whitespace, the characters matched by the regex class used in
`page.tsx` (`\s`) on the inputs this repository handles. -/
def jsIsWs (c : Char) : Bool :=
  c == ' ' || c == '\t' || c == '\n' || c == '\r' || c == '\x0b' || c == '\x0c'

/-- Drop trailing characters satisfying `p` (helper for `String.prototype.trim`). -/
def dropEnd (p : Char → Bool) : JsStr → JsStr
  | [] => []
  | c :: t =>
    let r := dropEnd p t
    if r.isEmpty then (if p c then [] else [c]) else c :: r

/-- `String.prototype.trim`: remove leading and trailing whitespace. -/
def jsTrim (s : JsStr) : JsStr := dropEnd jsIsWs (s.dropWhile jsIsWs)

/-- `String.prototype.split` with a single-character alternation regex:
split on every character satisfying `p`, keeping empty pieces. -/
def splitOnP (p : Char → Bool) : JsStr → List JsStr
  | [] => [[]]
  | c :: rest =>
    let r := splitOnP p rest
    if p c then [] :: r
    else (c :: r.headD []) :: r.tail

/-- `Array.prototype.join` with a one-character separator. -/
def joinSep (sep : Char) : List JsStr → JsStr
  | [] => []
  | x :: xs =>
    match xs with
    | [] => x
    | _ :: _ => x ++ sep :: joinSep sep xs

/-- Does `s` begin with `pat`? -/
def begWith : JsStr → JsStr → Bool
  | [], _ => true
  | _ :: _, [] => false
  | p :: pt, c :: ct => p == c && begWith pt ct

/-- Does `s` contain `pat` as a contiguous substring? -/
def containsSub (pat : JsStr) : JsStr → Bool
  | [] => pat.isEmpty
  | c :: t => begWith pat (c :: t) || containsSub pat t

/-- Fuel-driven decimal rendering of a natural number (structural recursion,
so the kernel can evaluate it on concrete inputs). -/
def natToStrAux : Nat → Nat → JsStr → JsStr
  | 0, _, acc => acc
  | fuel + 1, n, acc =>
    let acc' := Char.ofNat (48 + n % 10) :: acc
    if n < 10 then acc' else natToStrAux fuel (n / 10) acc'

/-- Decimal rendering of a natural number. -/
def natToStr (n : Nat) : JsStr := natToStrAux (n + 1) n []

/-- Number of whitespace-separated words in a string. -/
def wordCount (s : JsStr) : Nat :=
  ((splitOnP jsIsWs s).filter (fun w => !w.isEmpty)).length

/-! ### Data model (spec section 3; the type declarations live in
`lib/generator`, which is not under `src/`) -/

/-- Modelled from the spec: a tone preset (`ToneOption { id, name, headlineModifier }`). -/
structure ToneOption where
  id : JsStr
  name : JsStr
  headlineModifier : JsStr
deriving DecidableEq

/-- Modelled from the spec: the resolved color roles of a theme; the spec
requires at least a `text` role and a `surface` role, plus enough colors to
derive a gradient (`primary`, `accent`). -/
structure Palette where
  primary : JsStr
  accent : JsStr
  surface : JsStr
  text : JsStr
deriving DecidableEq

/-- Modelled from the spec: a theme preset (`ThemeOption { id, name, palette }`). -/
structure ThemeOption where
  id : JsStr
  name : JsStr
  palette : Palette
deriving DecidableEq

/-- The closed hero-layout selector with exactly three variants. -/
inductive HeroLayout where
  | split
  | center
  | left
deriving DecidableEq

/-- One illustrative hero metric. -/
structure Stat where
  label : JsStr
  value : JsStr
deriving DecidableEq

/-- One `{title, description}` entry of a section item grid. -/
structure SectionItem where
  title : JsStr
  description : JsStr
deriving DecidableEq

/-- One ordered content block of the blueprint body. -/
structure PageSection where
  id : JsStr
  label : JsStr
  headline : JsStr
  body : JsStr
  items : Option (List SectionItem)
deriving DecidableEq

/-- The top-of-page hero block. -/
structure Hero where
  eyebrow : JsStr
  title : JsStr
  subtitle : JsStr
  primaryCta : JsStr
  secondaryCta : JsStr
  stats : List Stat
deriving DecidableEq

/-- The composed page description returned by the composer. -/
structure LandingBlueprint where
  hero : Hero
  sections : List PageSection
  palette : Palette
  gradient : JsStr
  heroLayout : HeroLayout
  generatedAt : Nat
deriving DecidableEq

/-- Modelled from the spec: the tone catalog `TONES` lives in
`lib/generator`, which is not under `src/`; entries follow the spec shape
(fixed ordered set of named presets with a headline modifier). -/
def TONES : List ToneOption :=
  [ { id := str "confident", name := str "Confident",
      headlineModifier := str "Ship with certainty:" },
    { id := str "friendly", name := str "Friendly",
      headlineModifier := str "Say hello to" },
    { id := str "technical", name := str "Technical",
      headlineModifier := str "Engineered precision:" } ]

/-- Modelled from the spec: the theme catalog `THEMES` lives in
`lib/generator`, which is not under `src/`; entries follow the spec shape
(fixed ordered set of named presets, palette with text and surface roles). -/
def THEMES : List ThemeOption :=
  [ { id := str "aurora", name := str "Aurora",
      palette := { primary := str "#6366f1", accent := str "#22d3ee",
                   surface := str "#f8fafc", text := str "#0f172a" } },
    { id := str "ember", name := str "Ember",
      palette := { primary := str "#f97316", accent := str "#ef4444",
                   surface := str "#fff7ed", text := str "#1c1917" } },
    { id := str "meadow", name := str "Meadow",
      palette := { primary := str "#10b981", accent := str "#84cc16",
                   surface := str "#ecfdf5", text := str "#064e3b" } } ]

/-! ### Functions embedded from `src/web/app/page.tsx` -/

/-- The character class of the split regex in `parseFeatures` (newline or comma). -/
def isFeatureSep (c : Char) : Bool := c == '\n' || c == ','

/-- `parseFeatures` from `src/web/app/page.tsx` lines 74-78:
split on newline or comma, trim each entry, drop empty entries. -/
def parseFeatures (value : JsStr) : List JsStr :=
  ((splitOnP isFeatureSep value).map jsTrim).filter (fun e => !e.isEmpty)

/-- `getTone` from `src/web/app/page.tsx` line 80:
`TONES.find((tone) => tone.id === id) ?? TONES[0]`. -/
def getTone (id : JsStr) : ToneOption :=
  (TONES.find? (fun tone => tone.id == id)).getD (TONES.get ⟨0, by decide⟩)

/-- `getTheme` from `src/web/app/page.tsx` line 81:
`THEMES.find((theme) => theme.id === id) ?? THEMES[0]`. -/
def getTheme (id : JsStr) : ThemeOption :=
  (THEMES.find? (fun theme => theme.id == id)).getD (THEMES.get ⟨0, by decide⟩)

/-- State machine for `productName.replace(/\s+/g, "-")`: each maximal run of
whitespace is emitted as a single hyphen; the flag records whether the
previous character was part of a whitespace run. -/
def replaceWsRunsAux : Bool → JsStr → JsStr
  | _, [] => []
  | prevWs, c :: t =>
    if jsIsWs c then
      if prevWs then replaceWsRunsAux true t
      else '-' :: replaceWsRunsAux true t
    else c :: replaceWsRunsAux false t

/-- The filename built in `handleDownload` (`src/web/app/page.tsx` line 212):
`productName.replace(/\s+/g, "-").toLowerCase() + "-landing.html"`. -/
def downloadFilename (productName : JsStr) : JsStr :=
  (replaceWsRunsAux false productName).map Char.toLower ++ str "-landing.html"

/-! ### Blueprint composer (spec section 4.1; `composeBlueprint` lives in
`lib/generator`, which is not under `src/`) -/

/-- Modelled from the spec: input record of `composeBlueprint` as passed by
the page (brief fields, already-resolved tone and theme, hero layout). -/
structure ComposeInput where
  productName : JsStr
  oneLiner : JsStr
  audience : JsStr
  problem : JsStr
  solution : JsStr
  differentiator : JsStr
  cta : JsStr
  features : List JsStr
  tone : ToneOption
  theme : ThemeOption
  heroLayout : HeroLayout
deriving DecidableEq

/-- Modelled from the spec: a blank required brief field degrades into a
generic placeholder phrase so every blueprint field stays non-empty. -/
def fallbackText (s ph : JsStr) : JsStr :=
  if (jsTrim s).isEmpty then ph else s

/-- Modelled from the spec: the fixed placeholder features substituted for an
empty feature list. -/
def PLACEHOLDER_FEATURES : List JsStr :=
  [str "Fast onboarding", str "Sensible defaults", str "One-click export"]

/-- Modelled from the spec: the gradient derived from two palette colors in a
fixed order (primary to accent diagonal). -/
def deriveGradient (p : Palette) : JsStr :=
  str "linear-gradient(135deg, " ++ p.primary ++ str ", " ++ p.accent ++ str ")"

/-- Modelled from the spec: `composeBlueprint` (spec section 4.1) lives in
`lib/generator`, which is not under `src/`. Hero synthesis, five fixed
sections, theme application, layout passthrough, and an injected clock for
`generatedAt` follow the spec text. -/
def composeBlueprint (input : ComposeInput) (now : Nat) : LandingBlueprint :=
  let productName := fallbackText input.productName (str "Your product")
  let oneLiner := fallbackText input.oneLiner (str "a product your audience will love")
  let audience := fallbackText input.audience (str "modern teams")
  let problemText := fallbackText input.problem (str "the old workflow slows everyone down")
  let solutionText := fallbackText input.solution (str "a faster way to get the work done")
  let diff := fallbackText input.differentiator (str "It is designed around your audience from day one")
  let ctaText := fallbackText input.cta (str "Get started")
  let feats := if input.features.isEmpty then PLACEHOLDER_FEATURES else input.features
  { hero :=
      { eyebrow := productName ++ str " — building for " ++ audience,
        title := input.tone.headlineModifier ++ str " " ++ oneLiner,
        subtitle := str "From " ++ problemText ++ str " to " ++ solutionText,
        primaryCta := ctaText,
        secondaryCta := str "See how it works",
        stats :=
          [ { label := str "features highlighted", value := natToStr feats.length },
            { label := str "audience keywords", value := natToStr (wordCount audience) },
            { label := str "sections generated", value := natToStr 5 } ] },
    sections :=
      [ { id := str "problem", label := str "Problem",
          headline := str "What is holding " ++ audience ++ str " back",
          body := problemText, items := none },
        { id := str "solution", label := str "Solution",
          headline := str "How " ++ productName ++ str " fixes it",
          body := solutionText, items := none },
        { id := str "features", label := str "Features",
          headline := str "What you get with " ++ productName,
          body := str "Everything below is generated from your brief.",
          items := some (feats.map (fun f =>
            { title := fallbackText f (str "A capability worth naming"),
              description := str "Why it matters: " ++ f })) },
        { id := str "proof", label := str "Proof",
          headline := str "Why teams pick " ++ productName,
          body := diff, items := none },
        { id := str "cta", label := str "Call to action",
          headline := str "Ready when you are",
          body := str "Launch your page for " ++ audience ++ str " today.",
          items := none } ],
    palette := input.theme.palette,
    gradient := deriveGradient input.theme.palette,
    heroLayout := input.heroLayout,
    generatedAt := now }

/-! ### Static exporter (spec section 4.2; `buildExportHtml` lives in
`lib/generator`, which is not under `src/`) -/

/-- Modelled from the spec: the HTML escaping step applied to every piece of
brief-derived free text before embedding. -/
def escapeChar (c : Char) : JsStr :=
  if c = '&' then str "&amp;"
  else if c = '<' then str "&lt;"
  else if c = '>' then str "&gt;"
  else if c = '"' then str "&quot;"
  else [c]

/-- Modelled from the spec: HTML-escape a whole string. -/
def escapeHtml (s : JsStr) : JsStr := (s.map escapeChar).flatten

/-- Modelled from the spec: render one hero stat. -/
def statHtml (st : Stat) : JsStr :=
  str "<div class=\"stat\"><p class=\"value\">" ++ escapeHtml st.value ++
  str "</p><p class=\"label\">" ++ escapeHtml st.label ++ str "</p></div>"

/-- Modelled from the spec: render one feature card. -/
def itemHtml (it : SectionItem) : JsStr :=
  str "<div class=\"card\"><h4>" ++ escapeHtml it.title ++ str "</h4><p>" ++
  escapeHtml it.description ++ str "</p></div>"

/-- Modelled from the spec: render one content section, either as an item
grid or as the single CTA fallback block. -/
def sectionHtml (primaryCta : JsStr) (sec : PageSection) : JsStr :=
  str "<section><p class=\"eyebrow\">" ++ escapeHtml sec.label ++
  str "</p><h3>" ++ escapeHtml sec.headline ++ str "</h3><p>" ++
  escapeHtml sec.body ++ str "</p>" ++
  (match sec.items with
   | some its => str "<div class=\"grid\">" ++ (its.map itemHtml).flatten ++ str "</div>"
   | none => str "<a class=\"cta\" href=\"#\">" ++ escapeHtml primaryCta ++ str "</a>") ++
  str "</section>"

/-- Modelled from the spec: the structural hero arrangement class for each
layout variant. -/
def layoutClass : HeroLayout → JsStr
  | .split => str "hero-split"
  | .center => str "hero-center"
  | .left => str "hero-left"

/-- Modelled from the spec: `buildExportHtml` (spec section 4.2) lives in
`lib/generator`, which is not under `src/`. It renders a single
self-contained HTML5 document with inline styles, escaping every piece of
brief-derived free text. -/
def buildExportHtml (bp : LandingBlueprint) : JsStr :=
  str "<!DOCTYPE html><html lang=\"en\"><head><meta charset=\"utf-8\"><title>" ++
  escapeHtml bp.hero.title ++
  str "</title></head><body style=\"margin:0;font-family:sans-serif;background-color:" ++
  escapeHtml bp.palette.surface ++ str ";color:" ++ escapeHtml bp.palette.text ++
  str "\"><header class=\"" ++ layoutClass bp.heroLayout ++
  str "\" style=\"background:" ++ escapeHtml bp.gradient ++
  str "\"><p class=\"eyebrow\">" ++ escapeHtml bp.hero.eyebrow ++
  str "</p><h1>" ++ escapeHtml bp.hero.title ++
  str "</h1><p>" ++ escapeHtml bp.hero.subtitle ++
  str "</p><a class=\"cta\" href=\"#\">" ++ escapeHtml bp.hero.primaryCta ++
  str "</a><a class=\"ghost\" href=\"#\">" ++ escapeHtml bp.hero.secondaryCta ++
  str "</a><div class=\"stats\">" ++ (bp.hero.stats.map statHtml).flatten ++
  str "</div></header><main>" ++
  (bp.sections.map (sectionHtml bp.hero.primaryCta)).flatten ++
  str "</main></body></html>"

/-! ### The download request assembled by the UI layer -/

/-- The observable payload of `handleDownload`: filename, file content and
blob mime type (`src/web/app/page.tsx` lines 207-217). -/
structure DownloadRequest where
  filename : JsStr
  content : JsStr
  mimeType : JsStr
deriving DecidableEq

/-- `handleDownload` from `src/web/app/page.tsx` lines 207-217, reduced to
its observable payload: a blob of the export HTML typed
`text/html;charset=utf-8` under the derived filename. -/
def handleDownload (productName : JsStr) (bp : LandingBlueprint) : DownloadRequest :=
  { filename := downloadFilename productName,
    content := buildExportHtml bp,
    mimeType := str "text/html;charset=utf-8" }

/-! ### Lemmas about the string primitives -/

theorem dropEnd_cons (p : Char → Bool) (c : Char) (t : JsStr) :
    dropEnd p (c :: t) =
      if (dropEnd p t).isEmpty then (if p c then [] else [c]) else c :: dropEnd p t := rfl

theorem joinSep_two (sep : Char) (x y : JsStr) (t : List JsStr) :
    joinSep sep (x :: y :: t) = x ++ sep :: joinSep sep (y :: t) := rfl

theorem splitOnP_ne_nil (p : Char → Bool) : ∀ l : JsStr, splitOnP p l ≠ []
  | [] => by simp [splitOnP]
  | c :: rest => by
    cases hc : p c <;> simp [splitOnP, hc]

theorem mem_splitOnP (p : Char → Bool) :
    ∀ (l x : JsStr), x ∈ splitOnP p l → ∀ c ∈ x, p c = false
  | [], x, hx => by
    simp [splitOnP] at hx
    subst hx; simp
  | d :: rest, x, hx => by
    simp only [splitOnP] at hx
    cases hd : p d with
    | true =>
      rw [hd] at hx
      simp only [if_true] at hx
      rcases List.mem_cons.mp hx with h | h
      · subst h; simp
      · exact mem_splitOnP p rest x h
    | false =>
      rw [hd] at hx
      simp only [Bool.false_eq_true, if_false] at hx
      cases hrest : splitOnP p rest with
      | nil => exact absurd hrest (splitOnP_ne_nil p rest)
      | cons t ts =>
        rw [hrest] at hx
        simp only [List.headD_cons, List.tail_cons] at hx
        rcases List.mem_cons.mp hx with h | h
        · subst h
          intro c hc
          rcases List.mem_cons.mp hc with rfl | hc
          · exact hd
          · exact mem_splitOnP p rest t (hrest ▸ List.mem_cons_self t ts) c hc
        · exact mem_splitOnP p rest x (hrest ▸ List.mem_cons_of_mem t h)

theorem splitOnP_all_false (p : Char → Bool) :
    ∀ l : JsStr, (∀ c ∈ l, p c = false) → splitOnP p l = [l]
  | [], _ => rfl
  | c :: rest, h => by
    have hc : p c = false := h c (List.mem_cons_self c rest)
    have hrest := splitOnP_all_false p rest (fun d hd => h d (List.mem_cons_of_mem c hd))
    simp [splitOnP, hc, hrest]

theorem splitOnP_append (p : Char → Bool) :
    ∀ (a : JsStr) (m : Char) (b : JsStr), (∀ c ∈ a, p c = false) → p m = true →
      splitOnP p (a ++ m :: b) = a :: splitOnP p b
  | [], m, b, _, hm => by simp [splitOnP, hm]
  | d :: a', m, b, ha, hm => by
    have hd : p d = false := ha d (List.mem_cons_self d a')
    have ih := splitOnP_append p a' m b (fun c hc => ha c (List.mem_cons_of_mem d hc)) hm
    simp [splitOnP, hd, ih]

theorem joinSep_cons_cons (sep c : Char) (x : JsStr) (xs : List JsStr) :
    joinSep sep ((c :: x) :: xs) = c :: joinSep sep (x :: xs) := by
  cases xs <;> simp [joinSep]

theorem joinSep_nil_cons (sep : Char) (r : List JsStr) (h : r ≠ []) :
    joinSep sep ([] :: r) = sep :: joinSep sep r := by
  cases r with
  | nil => exact absurd rfl h
  | cons y ys => simp [joinSep]

theorem splitOnP_joinSep (p : Char → Bool) (sep : Char) (hsep : p sep = true) :
    ∀ xs : List JsStr, xs ≠ [] → (∀ x ∈ xs, ∀ c ∈ x, p c = false) →
      splitOnP p (joinSep sep xs) = xs
  | [], h, _ => absurd rfl h
  | [x], _, hall => by
    simp only [joinSep]
    exact splitOnP_all_false p x (hall x (by simp))
  | x :: y :: t, _, hall => by
    have ih := splitOnP_joinSep p sep hsep (y :: t) (by simp)
      (fun z hz => hall z (List.mem_cons_of_mem x hz))
    rw [joinSep_two, splitOnP_append p x sep (joinSep sep (y :: t)) (hall x (by simp)) hsep, ih]

theorem mem_dropEnd (p : Char → Bool) :
    ∀ (l : JsStr) (c : Char), c ∈ dropEnd p l → c ∈ l
  | [], c, h => by simp [dropEnd] at h
  | d :: t, c, h => by
    simp only [dropEnd] at h
    cases ht : dropEnd p t with
    | nil =>
      rw [ht] at h
      simp only [List.isEmpty_nil, if_true] at h
      cases hd : p d with
      | true => rw [hd] at h; simp at h
      | false =>
        rw [hd] at h
        simp only [Bool.false_eq_true, if_false, List.mem_singleton] at h
        subst h; exact List.mem_cons_self c t
    | cons a as =>
      rw [ht] at h
      simp only [List.isEmpty_cons, if_false, Bool.false_eq_true] at h
      rcases List.mem_cons.mp h with rfl | h
      · exact List.mem_cons_self c t
      · exact List.mem_cons_of_mem d (mem_dropEnd p t c (ht ▸ h))

theorem dropEnd_head (p : Char → Bool) :
    ∀ (l : JsStr) (c : Char) (r : JsStr), dropEnd p l = c :: r → ∃ t, l = c :: t
  | [], c, r, h => by simp [dropEnd] at h
  | d :: t, c, r, h => by
    simp only [dropEnd] at h
    cases ht : dropEnd p t with
    | nil =>
      rw [ht] at h
      simp only [List.isEmpty_nil, if_true] at h
      cases hd : p d with
      | true => rw [hd] at h; simp at h
      | false =>
        rw [hd] at h
        simp only [Bool.false_eq_true, if_false] at h
        injection h with h1 _
        exact ⟨t, by rw [h1]⟩
    | cons a as =>
      rw [ht] at h
      simp only [List.isEmpty_cons, if_false, Bool.false_eq_true] at h
      injection h with h1 _
      exact ⟨t, by rw [h1]⟩

theorem dropEnd_idem (p : Char → Bool) :
    ∀ l : JsStr, dropEnd p (dropEnd p l) = dropEnd p l
  | [] => rfl
  | c :: t => by
    cases ht : dropEnd p t with
    | nil =>
      simp only [dropEnd, ht, List.isEmpty_nil, if_true]
      cases hc : p c with
      | true => rfl
      | false => simp [dropEnd, hc]
    | cons a as =>
      have h2 : dropEnd p (a :: as) = a :: as := by
        rw [← ht]; exact dropEnd_idem p t
      rw [dropEnd_cons p c t, ht]
      simp only [List.isEmpty_cons, Bool.false_eq_true, if_false]
      rw [dropEnd_cons p c (a :: as), h2]
      simp

theorem dropWhile_head_false (p : Char → Bool) :
    ∀ (l : JsStr) (c : Char) (t : JsStr), l.dropWhile p = c :: t → p c = false
  | [], c, t, h => by simp [List.dropWhile] at h
  | d :: r, c, t, h => by
    cases hd : p d with
    | true =>
      rw [List.dropWhile_cons, if_pos hd] at h
      exact dropWhile_head_false p r c t h
    | false =>
      rw [List.dropWhile_cons, if_neg (by simp [hd])] at h
      injection h with h1 _
      subst h1; exact hd

theorem mem_jsTrim {l : JsStr} {c : Char} (h : c ∈ jsTrim l) : c ∈ l :=
  (List.dropWhile_sublist jsIsWs).mem (mem_dropEnd jsIsWs _ c h)

theorem jsTrim_idem (l : JsStr) : jsTrim (jsTrim l) = jsTrim l := by
  unfold jsTrim
  have hdw : (dropEnd jsIsWs (l.dropWhile jsIsWs)).dropWhile jsIsWs =
      dropEnd jsIsWs (l.dropWhile jsIsWs) := by
    cases hv : dropEnd jsIsWs (l.dropWhile jsIsWs) with
    | nil => simp
    | cons c r =>
      obtain ⟨t, ht⟩ := dropEnd_head jsIsWs (l.dropWhile jsIsWs) c r hv
      have hpc : jsIsWs c = false := dropWhile_head_false jsIsWs l c t ht
      rw [List.dropWhile_cons, if_neg (by simp [hpc])]
  rw [hdw, dropEnd_idem]

/-! ### Spec-side reading of the download filename -/

/-- Does a string start with a non-whitespace character (or end)? Marks the
position right after a whitespace run. -/
def startsNonWs : JsStr → Bool
  | [] => true
  | d :: _ => !jsIsWs d

/-- The spec wording of the filename transform, read compositionally: split
the product name on maximal whitespace runs (keeping the empty pieces at the
boundaries) and rejoin the pieces with single hyphens. -/
def splitRunsWs : JsStr → List JsStr
  | [] => [[]]
  | c :: t =>
    let r := splitRunsWs t
    if jsIsWs c then (if startsNonWs t then [] :: r else r)
    else (c :: r.headD []) :: r.tail

/-- The download filename as the spec describes it: every maximal whitespace
run of the product name replaced by a single hyphen, lowercased, with the
suffix appended. -/
def specDownloadFilename (productName : JsStr) : JsStr :=
  (joinSep '-' (splitRunsWs productName)).map Char.toLower ++ str "-landing.html"

theorem splitRunsWs_cons (c : Char) (t : JsStr) :
    splitRunsWs (c :: t) =
      if jsIsWs c then (if startsNonWs t then [] :: splitRunsWs t else splitRunsWs t)
      else (c :: (splitRunsWs t).headD []) :: (splitRunsWs t).tail := rfl

theorem splitRunsWs_ne_nil : ∀ l : JsStr, splitRunsWs l ≠ []
  | [] => by simp [splitRunsWs]
  | c :: t => by
    have ih := splitRunsWs_ne_nil t
    rw [splitRunsWs_cons]
    cases hc : jsIsWs c with
    | true =>
      simp only [if_true]
      cases hs : startsNonWs t with
      | true => simp
      | false => simpa using ih
    | false => simp

theorem splitRunsWs_ws_cons :
    ∀ (c : Char) (t : JsStr), jsIsWs c = true →
      splitRunsWs (c :: t) = [] :: splitRunsWs (t.dropWhile jsIsWs)
  | c, [], hc => by simp [splitRunsWs_cons, startsNonWs, hc, List.dropWhile]
  | c, d :: t', hc => by
    cases hd : jsIsWs d with
    | true =>
      have ih := splitRunsWs_ws_cons d t' hd
      rw [splitRunsWs_cons, List.dropWhile_cons, if_pos hd]
      simp only [hc, if_true, startsNonWs, hd, Bool.not_true, Bool.false_eq_true, if_false]
      exact ih
    | false =>
      simp [splitRunsWs_cons, startsNonWs, hc, hd, List.dropWhile_cons]

theorem replaceWsRunsAux_true :
    ∀ t : JsStr, replaceWsRunsAux true t = replaceWsRunsAux false (t.dropWhile jsIsWs)
  | [] => rfl
  | c :: t => by
    cases hc : jsIsWs c with
    | true =>
      simp only [replaceWsRunsAux, hc, if_true, List.dropWhile_cons]
      exact replaceWsRunsAux_true t
    | false =>
      simp [replaceWsRunsAux, hc, List.dropWhile_cons]

theorem length_dropWhile_le (p : Char → Bool) (l : JsStr) :
    (l.dropWhile p).length ≤ l.length :=
  (List.dropWhile_sublist p).length_le

theorem replaceWsRuns_eq_split : ∀ s : JsStr,
    replaceWsRunsAux false s = joinSep '-' (splitRunsWs s)
  | [] => rfl
  | c :: t => by
    cases hc : jsIsWs c with
    | false =>
      have ih := replaceWsRuns_eq_split t
      cases hr : splitRunsWs t with
      | nil => exact absurd hr (splitRunsWs_ne_nil t)
      | cons x xs =>
        rw [splitRunsWs_cons]
        simp only [hc, Bool.false_eq_true, if_false, hr, List.headD_cons, List.tail_cons]
        rw [joinSep_cons_cons, ← hr, ← ih]
        simp [replaceWsRunsAux, hc]
    | true =>
      have ih := replaceWsRuns_eq_split (t.dropWhile jsIsWs)
      have hlhs : replaceWsRunsAux false (c :: t) = '-' :: replaceWsRunsAux true t := by
        simp [replaceWsRunsAux, hc]
      rw [hlhs, replaceWsRunsAux_true, ih, splitRunsWs_ws_cons c t hc,
        joinSep_nil_cons _ _ (splitRunsWs_ne_nil _)]
termination_by s => s.length
decreasing_by
  all_goals
    simp only [List.length_cons]
    first
      | omega
      | exact Nat.lt_succ_of_le (length_dropWhile_le jsIsWs _)

/-! ### Lemmas about `parseFeatures` -/

theorem parseFeatures_mem (s : JsStr) :
    ∀ x ∈ parseFeatures s, x ≠ [] ∧ jsTrim x = x ∧ ∀ c ∈ x, isFeatureSep c = false := by
  intro x hx
  unfold parseFeatures at hx
  rw [List.mem_filter] at hx
  obtain ⟨hmap, hne⟩ := hx
  rw [List.mem_map] at hmap
  obtain ⟨y, hy, rfl⟩ := hmap
  refine ⟨by simpa [List.isEmpty_iff] using hne, jsTrim_idem y, ?_⟩
  intro c hc
  exact mem_splitOnP isFeatureSep s y hy c (mem_jsTrim hc)

theorem map_self_of_mem_eq {f : JsStr → JsStr} :
    ∀ l : List JsStr, (∀ a ∈ l, f a = a) → l.map f = l
  | [], _ => rfl
  | a :: t, h => by
    rw [List.map_cons, h a (List.mem_cons_self a t),
      map_self_of_mem_eq t (fun b hb => h b (List.mem_cons_of_mem a hb))]

theorem parseFeatures_reparse (s : JsStr) :
    parseFeatures (joinSep '\n' (parseFeatures s)) = parseFeatures s := by
  by_cases hnil : parseFeatures s = []
  · rw [hnil]; rfl
  · have hmem := parseFeatures_mem s
    have hsep : isFeatureSep '\n' = true := by decide
    have hsplit : splitOnP isFeatureSep (joinSep '\n' (parseFeatures s)) = parseFeatures s :=
      splitOnP_joinSep isFeatureSep '\n' hsep (parseFeatures s) hnil
        (fun z hz => (hmem z hz).2.2)
    have hdef : parseFeatures (joinSep '\n' (parseFeatures s)) =
        ((splitOnP isFeatureSep (joinSep '\n' (parseFeatures s))).map jsTrim).filter
          (fun e => !e.isEmpty) := rfl
  -- trimming the already-trimmed entries and filtering the already
  -- non-empty entries are both the identity
    rw [hdef, hsplit, map_self_of_mem_eq (parseFeatures s) (fun a ha => (hmem a ha).2.1),
      List.filter_eq_self.mpr]
    intro a ha
    simp [List.isEmpty_iff, (hmem a ha).1]

/-! ### Non-emptiness helpers -/

theorem natToStrAux_ne_nil :
    ∀ (fuel n : Nat) (acc : JsStr), acc ≠ [] → natToStrAux fuel n acc ≠ []
  | 0, _, _, h => h
  | fuel + 1, n, acc, _ => by
    simp only [natToStrAux]
    split
    · simp
    · exact natToStrAux_ne_nil fuel (n / 10) _ (by simp)

theorem natToStr_ne_nil (n : Nat) : natToStr n ≠ [] := by
  unfold natToStr
  simp only [natToStrAux]
  split
  · simp
  · exact natToStrAux_ne_nil n (n / 10) _ (by simp)

theorem jsTrim_nil : jsTrim [] = [] := rfl

theorem fallbackText_ne_nil (s ph : JsStr) (hph : ph ≠ []) : fallbackText s ph ≠ [] := by
  unfold fallbackText
  split
  · exact hph
  · intro hs
    rename_i h
    rw [hs] at h
    exact h (by rfl)

/-! ### Every character produced by the escaping step is harmless -/

theorem escapeHtml_no_lt (s : JsStr) : '<' ∉ escapeHtml s := by
  intro h
  unfold escapeHtml at h
  rw [List.mem_flatten] at h
  obtain ⟨l, hl, hc⟩ := h
  rw [List.mem_map] at hl
  obtain ⟨c, _, rfl⟩ := hl
  unfold escapeChar at hc
  split_ifs at hc with h1 h2 h3 h4
  · exact absurd hc (by decide)
  · exact absurd hc (by decide)
  · exact absurd hc (by decide)
  · exact absurd hc (by decide)
  · rw [List.mem_singleton] at hc
    exact h2 hc.symm

theorem append_right_ne_nil (a b : JsStr) (hb : b ≠ []) : a ++ b ≠ [] := by
  intro h
  rw [List.append_eq_nil] at h
  exact hb h.2

theorem append_left_ne_nil (a b : JsStr) (ha : a ≠ []) : a ++ b ≠ [] := by
  intro h
  rw [List.append_eq_nil] at h
  exact ha h.1

/-! ### Non-emptiness predicates over blueprints (for the non-empty
guarantee of spec section 8) -/

/-- Both text fields of a stat are non-empty. -/
def statTextOk (st : Stat) : Bool :=
  !st.label.isEmpty && !st.value.isEmpty

/-- Both text fields of a section item are non-empty. -/
def itemTextOk (it : SectionItem) : Bool :=
  !it.title.isEmpty && !it.description.isEmpty

/-- All text fields of a section, including any items, are non-empty. -/
def sectionTextOk (sec : PageSection) : Bool :=
  !sec.id.isEmpty && !sec.label.isEmpty && !sec.headline.isEmpty && !sec.body.isEmpty &&
  (sec.items.getD []).all itemTextOk

/-- All text fields of the hero, including the stats, are non-empty. -/
def heroTextOk (h : Hero) : Bool :=
  !h.eyebrow.isEmpty && !h.title.isEmpty && !h.subtitle.isEmpty &&
  !h.primaryCta.isEmpty && !h.secondaryCta.isEmpty && h.stats.all statTextOk

/-- All color values of a palette are non-empty. -/
def paletteTextOk (p : Palette) : Bool :=
  !p.primary.isEmpty && !p.accent.isEmpty && !p.surface.isEmpty && !p.text.isEmpty

/-- Every text field of the blueprint is non-empty. -/
def blueprintTextOk (bp : LandingBlueprint) : Bool :=
  heroTextOk bp.hero && bp.sections.all sectionTextOk &&
  paletteTextOk bp.palette && !bp.gradient.isEmpty

/-- The Features section carries a non-empty item list. -/
def featuresFilled (bp : LandingBlueprint) : Bool :=
  bp.sections.any (fun sec => sec.id == str "features" && !(sec.items.getD []).isEmpty)

/-! ### Claims -/

/-- C4: for every valid input, the blueprint returned by the composer has
exactly five sections, with the same fixed section identifiers in the same
fixed order Problem, Solution, Features, Proof, CTA, regardless of input. -/
theorem claim_C4_sections (input : ComposeInput) (now : Nat) :
    (composeBlueprint input now).sections.length = 5 ∧
    (composeBlueprint input now).sections.map (fun sec => sec.id) =
      [str "problem", str "solution", str "features", str "proof", str "cta"] :=
  ⟨rfl, rfl⟩

/-- C6: the composer is a deterministic function of its explicit inputs plus
the injected clock; two compositions with the same input but different clock
readings agree on every field except `generatedAt`, which records the clock. -/
theorem claim_C6_determinism (input : ComposeInput) (t1 t2 : Nat) :
    composeBlueprint input t1 = composeBlueprint input t1 ∧
    (composeBlueprint input t1).hero = (composeBlueprint input t2).hero ∧
    (composeBlueprint input t1).sections = (composeBlueprint input t2).sections ∧
    (composeBlueprint input t1).palette = (composeBlueprint input t2).palette ∧
    (composeBlueprint input t1).gradient = (composeBlueprint input t2).gradient ∧
    (composeBlueprint input t1).heroLayout = (composeBlueprint input t2).heroLayout ∧
    (composeBlueprint input t1).generatedAt = t1 :=
  ⟨rfl, rfl, rfl, rfl, rfl, rfl, rfl⟩

/-- C7: for each of the three hero layout variants, the `heroLayout` field of
the composed blueprint equals the `heroLayout` argument, unchanged. -/
theorem claim_C7_layout (input : ComposeInput) (now : Nat) (L : HeroLayout) :
    (composeBlueprint input now).heroLayout = input.heroLayout ∧
    (composeBlueprint { input with heroLayout := L } now).heroLayout = L :=
  ⟨rfl, rfl⟩

/-- C5: for every input to the composer, including an empty feature list and
blank or empty brief fields, every text field of the resulting blueprint is
non-empty (blank fields are replaced by placeholder phrases, an empty feature
list by fixed placeholder items), and the Features section is never empty.
The palette strings are copied verbatim from the selected theme, so the theme
is required to come from the catalog. -/
theorem claim_C5_nonempty (input : ComposeInput) (now : Nat)
    (htheme : input.theme ∈ THEMES) :
    blueprintTextOk (composeBlueprint input now) = true ∧
    featuresFilled (composeBlueprint input now) = true := by
  have hfb3 : fallbackText input.audience (str "modern teams") ≠ [] :=
    fallbackText_ne_nil _ _ (by decide)
  have hfb5 : fallbackText input.solution (str "a faster way to get the work done") ≠ [] :=
    fallbackText_ne_nil _ _ (by decide)
  constructor
  · simp only [blueprintTextOk, heroTextOk, Bool.and_eq_true, and_assoc]
    refine ⟨?_, ?_, ?_, ?_, ?_, ?_, ?_, ?_, ?_⟩
    · simp [composeBlueprint, List.isEmpty_iff, List.append_eq_nil, hfb3]
    · simp [composeBlueprint, List.isEmpty_iff, List.append_eq_nil,
        fallbackText_ne_nil input.oneLiner (str "a product your audience will love")
          (by decide)]
    · simp [composeBlueprint, List.isEmpty_iff, List.append_eq_nil, hfb5]
    · simp [composeBlueprint, List.isEmpty_iff,
        fallbackText_ne_nil input.cta (str "Get started") (by decide)]
    · rfl
    · -- the three stats
      simp only [List.all_eq_true]
      intro st hst
      simp only [composeBlueprint, List.mem_cons, List.not_mem_nil, or_false] at hst
      rcases hst with h | h | h <;> subst h <;>
        simp only [statTextOk, Bool.and_eq_true] <;>
        exact ⟨by decide, by simp [List.isEmpty_iff, natToStr_ne_nil]⟩
    · -- the five sections
      simp only [List.all_eq_true]
      intro sec hsec
      simp only [composeBlueprint, List.mem_cons, List.not_mem_nil, or_false] at hsec
      have hfb1 : fallbackText input.productName (str "Your product") ≠ [] :=
        fallbackText_ne_nil _ _ (by decide)
      have hfb4 : fallbackText input.problem
          (str "the old workflow slows everyone down") ≠ [] :=
        fallbackText_ne_nil _ _ (by decide)
      have hfb6 : fallbackText input.differentiator
          (str "It is designed around your audience from day one") ≠ [] :=
        fallbackText_ne_nil _ _ (by decide)
      rcases hsec with h | h | h | h | h <;> subst h <;>
        simp only [sectionTextOk, Bool.and_eq_true, and_assoc]
      · exact ⟨by decide, by decide,
          by simp [List.isEmpty_iff, List.append_eq_nil, hfb3],
          by simp [List.isEmpty_iff, hfb4], rfl⟩
      · exact ⟨by decide, by decide,
          by simp [List.isEmpty_iff, List.append_eq_nil, hfb1],
          by simp [List.isEmpty_iff, hfb5], rfl⟩
      · refine ⟨by decide, by decide,
          by simp [List.isEmpty_iff, List.append_eq_nil, hfb1], by decide, ?_⟩
        simp only [Option.getD_some, List.all_eq_true]
        intro it hit
        rw [List.mem_map] at hit
        obtain ⟨f, _, rfl⟩ := hit
        simp only [itemTextOk, Bool.and_eq_true]
        refine ⟨by simp [List.isEmpty_iff,
            fallbackText_ne_nil f (str "A capability worth naming") (by decide)], ?_⟩
        simp only [Bool.not_eq_true', List.isEmpty_eq_false, ne_eq]
        exact append_left_ne_nil _ _ (by decide)
      · exact ⟨by decide, by decide,
          by simp [List.isEmpty_iff, List.append_eq_nil, hfb1],
          by simp [List.isEmpty_iff, hfb6], rfl⟩
      · exact ⟨by decide, by decide, by decide,
          by simp [List.isEmpty_iff, List.append_eq_nil, hfb3], rfl⟩
    · -- palette values come from a catalog theme
      simp only [composeBlueprint]
      simp only [THEMES, List.mem_cons, List.not_mem_nil, or_false] at htheme
      rcases htheme with h | h | h <;> rw [h] <;> decide
    · -- the gradient always carries its literal pieces
      simp only [composeBlueprint, deriveGradient, Bool.not_eq_true', List.isEmpty_eq_false, ne_eq]
      exact append_right_ne_nil _ _ (by decide)
  · -- the Features section holds at least one item
    simp only [featuresFilled, composeBlueprint, List.any_cons, List.any_nil,
      Bool.or_eq_true, Bool.and_eq_true]
    refine Or.inr (Or.inr (Or.inl ⟨by decide, ?_⟩))
    simp only [Option.getD_some]
    by_cases hin : input.features.isEmpty = true
    · rw [if_pos hin]; decide
    · rw [if_neg hin]
      simp only [Bool.not_eq_true', List.isEmpty_eq_false, ne_eq, List.map_eq_nil_iff]
      simpa [List.isEmpty_iff] using hin

/-- A brief with every field blank and no features at all, exercising every
fallback path of the composer. -/
def blankInput : ComposeInput :=
  { productName := [], oneLiner := [], audience := [], problem := [], solution := [],
    differentiator := [], cta := [], features := [],
    tone := TONES.get ⟨0, by decide⟩, theme := THEMES.get ⟨0, by decide⟩,
    heroLayout := HeroLayout.center }

/-- Witness for C5: the non-empty guarantee evaluated on a fully blank brief. -/
theorem claim_C5_nonempty_witness :
    blankInput.theme ∈ THEMES ∧
    (blueprintTextOk (composeBlueprint blankInput 0) = true ∧
     featuresFilled (composeBlueprint blankInput 0) = true) :=
  ⟨by decide, claim_C5_nonempty blankInput 0 (by decide)⟩

/-- C2 counterexample: the code resolves an unknown theme id to the first
catalog entry, not to the second one named by the claim. -/
theorem claim_C2_counterexample :
    ¬ getTheme (str "no-such-theme") = THEMES.get ⟨1, by decide⟩ := by decide

/-- C2 (amended): for every identifier matching no catalog entry, `getTone`
falls back to the first element of `TONES` and `getTheme` falls back to the
first element of `THEMES`. -/
theorem claim_C2_fallback (id : JsStr)
    (h1 : ∀ t ∈ TONES, ¬ t.id = id) (h2 : ∀ th ∈ THEMES, ¬ th.id = id) :
    getTone id = TONES.get ⟨0, by decide⟩ ∧ getTheme id = THEMES.get ⟨0, by decide⟩ := by
  constructor
  · unfold getTone
    have hnone : TONES.find? (fun tone => tone.id == id) = none :=
      List.find?_eq_none.mpr (fun t ht => by simpa using h1 t ht)
    rw [hnone]
    rfl
  · unfold getTheme
    have hnone : THEMES.find? (fun theme => theme.id == id) = none :=
      List.find?_eq_none.mpr (fun th hth => by simpa using h2 th hth)
    rw [hnone]
    rfl

/-- Witness for the amended C2 at a concrete unknown identifier. -/
theorem claim_C2_fallback_witness :
    (∀ t ∈ TONES, ¬ t.id = str "plasma-x") ∧ (∀ th ∈ THEMES, ¬ th.id = str "plasma-x") ∧
    (getTone (str "plasma-x") = TONES.get ⟨0, by decide⟩ ∧
     getTheme (str "plasma-x") = THEMES.get ⟨0, by decide⟩) :=
  ⟨by decide, by decide, claim_C2_fallback (str "plasma-x") (by decide) (by decide)⟩

/-- C3: the feature text is split on newlines and commas, trimmed, and
cleared of empty entries in order; the documented example input parses to
exactly the three expected entries. -/
theorem claim_C3_parse_example :
    parseFeatures (str "Fast sync, Offline mode\nRealtime alerts") =
      [str "Fast sync", str "Offline mode", str "Realtime alerts"] := by decide

/-- C9: selection resolution is total — whatever the requested identifier,
including the empty string, `getTone` returns a member of `TONES` and
`getTheme` returns a member of `THEMES`. -/
theorem claim_C9_total (id : JsStr) : getTone id ∈ TONES ∧ getTheme id ∈ THEMES := by
  constructor
  · unfold getTone
    cases h : TONES.find? (fun tone => tone.id == id) with
    | none => exact List.get_mem TONES 0 (by decide)
    | some t => exact List.mem_of_find?_eq_some h
  · unfold getTheme
    cases h : THEMES.find? (fun theme => theme.id == id) with
    | none => exact List.get_mem THEMES 0 (by decide)
    | some th => exact List.mem_of_find?_eq_some h

/-- C10: `parseFeatures` is normalizing and stable under re-parsing — every
entry is non-empty, trimmed, and free of newline and comma characters, and
joining the entries with newlines and parsing again returns the same list. -/
theorem claim_C10_normalizing (s : JsStr) :
    (∀ x ∈ parseFeatures s, x ≠ [] ∧ jsTrim x = x ∧ ∀ c ∈ x, c ≠ '\n' ∧ c ≠ ',') ∧
    parseFeatures (joinSep '\n' (parseFeatures s)) = parseFeatures s := by
  refine ⟨?_, parseFeatures_reparse s⟩
  intro x hx
  obtain ⟨h1, h2, h3⟩ := parseFeatures_mem s x hx
  refine ⟨h1, h2, ?_⟩
  intro c hc
  have hsep := h3 c hc
  constructor <;> intro hEq <;> subst hEq <;> exact absurd hsep (by decide)

/-- C8: the download produced by the UI layer pairs the export HTML, typed
as UTF-8 `text/html`, with a filename obtained from the product name by
replacing every maximal whitespace run with a single hyphen, lowercasing,
and appending the `-landing.html` suffix. -/
theorem claim_C8_download (name : JsStr) (bp : LandingBlueprint) :
    (handleDownload name bp).filename = specDownloadFilename name ∧
    (handleDownload name bp).content = buildExportHtml bp ∧
    (handleDownload name bp).mimeType = str "text/html;charset=utf-8" := by
  refine ⟨?_, rfl, rfl⟩
  show downloadFilename name = specDownloadFilename name
  unfold downloadFilename specDownloadFilename
  rw [replaceWsRuns_eq_split]

/-- A brief whose product name carries an HTML injection attempt. -/
def injectionInput : ComposeInput :=
  { productName := str "<script>alert(1)</script>",
    oneLiner := str "Ship faster", audience := str "founders",
    problem := str "slow launches", solution := str "instant pages",
    differentiator := str "it adapts to your brand", cta := str "Try it now",
    features := [str "Fast sync", str "Offline mode"],
    tone := TONES.get ⟨0, by decide⟩, theme := THEMES.get ⟨0, by decide⟩,
    heroLayout := HeroLayout.split }

/-- The exported document for the injection brief. -/
def injectionHtml : JsStr := buildExportHtml (composeBlueprint injectionInput 0)

set_option maxRecDepth 100000 in
/-- C1: the escaping step never lets a raw left angle bracket through, and on
a brief whose product name contains a script tag the exported document
contains only the escaped entity form and no `<script` sequence anywhere in
its markup. -/
theorem claim_C1_escaping :
    (∀ s : JsStr, '<' ∉ escapeHtml s) ∧
    containsSub (str "&lt;script&gt;alert(1)&lt;/script&gt;") injectionHtml = true ∧
    containsSub (str "<script") injectionHtml = false :=
  ⟨escapeHtml_no_lt, by decide, by decide⟩
